import Mathlib

/-!
Shallow embedding of `src/attestations.py`, the attestation-generation
driver of pypa/gh-action-pypi-publish.

The driver only ever touches one directory (the packages directory given
as `sys.argv[1]`): it globs `*.tar.gz`, `*.zip`, `*.whl` there, and writes
sidecar files `<dist>.publish.attestation` next to the matched artifacts.
We model that directory as an association list from entry names to entry
kinds (regular file with content, or some other kind of filesystem object
such as a sub-directory).  `Path.resolve` is modelled as the identity on
names, since within a single directory resolution only prepends the same
absolute prefix to every name.  The CI step-summary file
(`GITHUB_STEP_SUMMARY`) and standard error are modelled as separate output
channels (lists of written chunks), and `sys.exit` as the returned exit
code.

The external collaborators are modelled as oracles passed to `main`:
`ident` is the outcome of `detect_credential` + `IdentityToken(...)`
(`Except.error e` when `sigstore.oidc.IdentityError` with message `e` is
raised), and `sign` is the composition of `Attestation.sign` with
`.model_dump_json()`, mapping a signer and a distribution to the JSON
serialization of the signed attestation.  A trace of the credential /
signing-session events is recorded so that session-reuse properties can be
stated.
-/

namespace Attestations

/-- Kind of a filesystem entry: a regular file with its text content, or an
entry that exists but is not a regular file (directory, socket, ...). -/
inductive FKind where
  | regular (content : String)
  | nonRegular
  deriving DecidableEq, Repr

/-- The packages directory: an association list from entry names to kinds.
A real directory listing has pairwise-distinct names; theorems that need
this assume `(fs.entries.map Prod.fst).Nodup`. -/
structure FS where
  entries : List (String × FKind)
  deriving DecidableEq, Repr

/-- First entry with the given name, if any. -/
def lookupKey (p : String) : List (String × FKind) → Option FKind
  | [] => none
  | e :: es => if e.1 = p then some e.2 else lookupKey p es

def FS.lookup (fs : FS) (p : String) : Option FKind := lookupKey p fs.entries

/-- `Path.exists()`. -/
def FS.pathExists (fs : FS) (p : String) : Bool := (fs.lookup p).isSome

/-- `Path.is_file()`. -/
def FS.isFile (fs : FS) (p : String) : Bool :=
  match fs.lookup p with
  | some (FKind.regular _) => true
  | _ => false

/-- Content read from a regular file (`Distribution.from_file` reads the
artifact file bytes); defaults to `""` on non-files, which the driver never
relies on because of its up-front `is_file` validation. -/
def FS.contentOf (fs : FS) (p : String) : String :=
  match fs.lookup p with
  | some (FKind.regular c) => c
  | _ => ""

/-- `Path.write_text`: truncate-overwrite an existing entry, else create a
new one. -/
def FS.writeText (fs : FS) (p c : String) : FS :=
  if fs.pathExists p
  then ⟨fs.entries.map (fun e => if e.1 = p then (p, FKind.regular c) else e)⟩
  else ⟨fs.entries ++ [(p, FKind.regular c)]⟩

/-- Whether a name matches the glob pattern `*<ext>`: the fnmatch star in `fnmatch`
matches any (possibly empty) run of characters, so the pattern holds
exactly when `ext` is a suffix of the name. -/
def endsWithExt (name ext : String) : Bool := decide (ext.data <:+ name.data)

/-- `packages_dir.glob(pattern)` for a pattern of the form `*<ext>`:
the directory entries, in listing order, whose name matches. -/
def FS.glob (fs : FS) (ext : String) : List String :=
  (fs.entries.filter (fun e => endsWithExt e.1 ext)).map Prod.fst

/-- `Path.resolve()`, modelled as the identity on names (see module
comment). -/
def resolvePath (p : String) : String := p

/-- The signer obtained from
`SigningContext.production().signer(identity, cache=True)`. -/
structure Signer where
  identity : String
  cache : Bool
  deriving DecidableEq, Repr

/-- result of `pypi_attestations.Distribution.from_file`: the artifact path
together with the file content it was computed from. -/
structure Distribution where
  path : String
  content : String
  deriving DecidableEq, Repr

def Distribution.from_file (p : String) (c : String) : Distribution := ⟨p, c⟩

/-- Credential / signing-session events, recorded so that session-reuse
can be stated: fetching the OIDC token, scanning the directory, opening
the signing session, and one signing call per artifact. -/
inductive Event where
  | fetchToken
  | scanDir
  | openSession (signer : Signer)
  | signCall (signer : Signer) (dist_path : String)
  deriving DecidableEq, Repr

/-- Mutable state threaded through a run: the directory, the chunks
appended to the step-summary file, the lines printed to stderr, and the
event trace. -/
structure RunState where
  fs : FS
  stepSummary : List String
  stderr : List String
  trace : List Event
  deriving DecidableEq, Repr

/-- Observable outcome of a whole run. -/
structure RunResult where
  exitCode : Nat
  fs : FS
  stepSummary : List String
  stderr : List String
  trace : List Event
  deriving DecidableEq, Repr

/-- `str.replace('\n', '%0A')` for the single-character pattern used by
`die` (core `String.replace` does not reduce in the kernel, so the
single-character case is embedded directly). -/
def replaceNewlines : List Char → List Char
  | [] => []
  | c :: cs =>
      if c = '\n' then '%' :: '0' :: 'A' :: replaceNewlines cs
      else c :: replaceNewlines cs

def escapeNewlines (s : String) : String := ⟨replaceNewlines s.data⟩

/-- `_ERROR_SUMMARY_MESSAGE.format(message=msg)`. -/
def errorSummaryMsg (message : String) : String :=
  "\nAttestation generation failure:\n\n" ++ message ++
    "\n\nYou\x27re seeing this because the action attempted to generated PEP 740\nattestations for its inputs, but failed to do so.\n"

/-- `_TOKEN_RETRIEVAL_FAILED_MESSAGE.format(identity_error=...)`. -/
def tokenRetrievalFailedMsg (identity_error : String) : String :=
  "\nOpenID Connect token retrieval failed: " ++ identity_error ++
    "\n\nThis failure occurred after a successful Trusted Publishing Flow,\nsuggesting a transient error.\n"

/-- `die(msg)`: append the wrapped summary to the step-summary file, print
one `::error::` line with newlines percent-encoded, and exit 1. -/
def die (st : RunState) (msg : String) : RunResult :=
  { exitCode := 1
    fs := st.fs
    stepSummary := st.stepSummary ++ [errorSummaryMsg msg]
    stderr := st.stderr ++
      ["::error::Attestation generation failure: " ++ escapeNewlines msg]
    trace := st.trace }

/-- Normal process termination with exit code 0. -/
def finish (st : RunState) : RunResult :=
  ⟨0, st.fs, st.stepSummary, st.stderr, st.trace⟩

/-- The full glob phase of `collect_dists`: matches of `*.tar.gz`, then
`*.zip`, then `*.whl`, each resolved. -/
def distCandidates (fs : FS) : List String :=
  ((fs.glob ".tar.gz").map resolvePath) ++ ((fs.glob ".zip").map resolvePath)
    ++ ((fs.glob ".whl").map resolvePath)

/-- `collect_dists`: glob the three patterns, then fail (via `die`, here
the `Except.error`) when anything matched is not a regular file. -/
def collect_dists (fs : FS) : Except String (List String) :=
  let dist_paths := distCandidates fs
  let invalid_dists := dist_paths.filter (fun p => !(fs.isFile p))
  if invalid_dists.isEmpty then
    Except.ok dist_paths
  else
    Except.error
      ("The following paths look like distributions but are not actually files: "
        ++ String.intercalate ", " invalid_dists)

/-- Sidecar naming convention: appending `.publish.attestation` to the dist path. -/
def sidecarName (dist_path : String) : String :=
  dist_path ++ ".publish.attestation"

/-- `attest_dist(dist_path, signer)`: die on a pre-existing sidecar, else
build the distribution from the file, sign it, write the sidecar, and
print a debug trace.  (The debug line elides the Python repr quoting of
the two paths.) -/
def attest_dist (sign : Signer → Distribution → String) (dist_path : String)
    (signer : Signer) (st : RunState) : Except (RunState × String) RunState :=
  let attestation_path := sidecarName dist_path
  if st.fs.pathExists attestation_path then
    Except.error
      (st, dist_path ++ " already has a publish attestation: " ++ attestation_path)
  else
    let dist := Distribution.from_file dist_path (st.fs.contentOf dist_path)
    let attestation_json := sign signer dist
    Except.ok
      { st with
        fs := st.fs.writeText attestation_path attestation_json
        stderr := st.stderr ++
          ["::debug::saved publish attestation: dist_path=" ++ dist_path
            ++ " attestation_path=" ++ attestation_path]
        trace := st.trace ++ [Event.signCall signer dist_path] }

/-- The `for dist_path in dist_paths` loop in `main`, with `die` surfaced
as `Except.error` carrying the state at the moment of death. -/
def attestLoop (sign : Signer → Distribution → String) (signer : Signer) :
    List String → RunState → Except (RunState × String) RunState
  | [], st => Except.ok st
  | p :: ps, st =>
    match attest_dist sign p signer st with
    | Except.error e => Except.error e
    | Except.ok st' => attestLoop sign signer ps st'

/-- `main()`: fetch the OIDC identity (dying with the dedicated message on
`IdentityError`), collect the distributions, open one signing session with
`cache=True`, and attest every distribution with that same session. -/
def main (ident : Except String String) (sign : Signer → Distribution → String)
    (fs0 : FS) : RunResult :=
  let st0 : RunState := ⟨fs0, [], [], []⟩
  match ident with
  | Except.error identity_error =>
      die { st0 with trace := st0.trace ++ [Event.fetchToken] }
        (tokenRetrievalFailedMsg identity_error)
  | Except.ok identity =>
      let st1 := { st0 with trace := st0.trace ++ [Event.fetchToken, Event.scanDir] }
      match collect_dists st1.fs with
      | Except.error msg => die st1 msg
      | Except.ok dist_paths =>
          let signer : Signer := { identity := identity, cache := true }
          let st2 := { st1 with
            trace := st1.trace ++ [Event.openSession signer]
            stderr := st1.stderr ++
              ["::debug::attesting to dists: " ++ String.intercalate ", " dist_paths] }
          match attestLoop sign signer dist_paths st2 with
          | Except.error (st, msg) => die st msg
          | Except.ok st => finish st

/-- Module-level `_GITHUB_STEP_SUMMARY = Path(os.getenv(...))`:
`os.getenv` yields `None` when the variable is unset, and `Path(None)`
raises `TypeError`. -/
def pathFromEnv : Option String → Except String String
  | none =>
      Except.error
        "TypeError: argument should be a str or an os.PathLike object, not NoneType"
  | some s => Except.ok s

/-- The whole process, module initialization included.  `Except.error e`
models an unhandled exception escaping at import time: Python prints a
traceback and exits 1 without running `main`, so nothing is appended to
the step summary and no `::error::` annotation is printed. -/
def program (github_step_summary_env : Option String)
    (ident : Except String String) (sign : Signer → Distribution → String)
    (fs : FS) : Except String RunResult :=
  match pathFromEnv github_step_summary_env with
  | Except.error e => Except.error e
  | Except.ok _ => Except.ok (main ident sign fs)

/-- A name matched by one of the three dist globs. -/
def isDistName (p : String) : Prop :=
  ".tar.gz".data <:+ p.data ∨ ".zip".data <:+ p.data ∨ ".whl".data <:+ p.data

/-- The entry written for one artifact, with the content read from the
given directory state. -/
def sidecarWrite (sign : Signer → Distribution → String) (signer : Signer)
    (fs0 : FS) (p : String) : String × FKind :=
  (sidecarName p,
    FKind.regular (sign signer (Distribution.from_file p (fs0.contentOf p))))

/-- The debug line printed after a successful per-artifact attestation. -/
def debugSavedLine (p : String) : String :=
  "::debug::saved publish attestation: dist_path=" ++ p
    ++ " attestation_path=" ++ sidecarName p

/-- State at the moment the loop stopped, whether it returned or died. -/
def stateOf : Except (RunState × String) RunState → RunState
  | Except.ok st => st
  | Except.error (st, _) => st

/-- The run state right after a successful `collect_dists`, with the
signing session just opened. -/
def loopStart (tok : String) (fs : FS) (ds : List String) : RunState :=
  ⟨fs, [],
    ["::debug::attesting to dists: " ++ String.intercalate ", " ds],
    [Event.fetchToken, Event.scanDir, Event.openSession ⟨tok, true⟩]⟩

/-! Concrete fixtures used to instantiate the theorems below on closed
inputs. -/

/-- A concrete signing oracle. -/
def wSign : Signer → Distribution → String := fun _ d => "json-" ++ d.path

/-- Two clean artifacts. -/
def w1FS : FS :=
  ⟨[("a.tar.gz", FKind.regular "srcA"), ("b.whl", FKind.regular "whlB")]⟩

/-- A directory whose name matches an artifact glob. -/
def w2FS : FS := ⟨[("pkg.zip", FKind.nonRegular)]⟩

/-- Two artifacts where the second already has a sidecar. -/
def w3FS : FS :=
  ⟨[("a.whl", FKind.regular "A"), ("b.whl", FKind.regular "B"),
    ("b.whl.publish.attestation", FKind.regular "OLD")]⟩

/-- An empty directory. -/
def w5FS : FS := ⟨[]⟩

/-- A directory with one non-artifact file. -/
def w6FS : FS := ⟨[("README.md", FKind.regular "readme")]⟩

/-- One clean artifact. -/
def w7FS : FS := ⟨[("a.whl", FKind.regular "A")]⟩

/-- A pre-existing non-artifact file next to an artifact. -/
def w8FS : FS :=
  ⟨[("data.txt", FKind.regular "keep me"), ("a.whl", FKind.regular "A")]⟩

/-- A directory with no glob match at all. -/
def w9FS : FS := ⟨[("notes.rst", FKind.regular "n")]⟩

/-! Helper lemmas about the filesystem model. -/

theorem lookupKey_append_some {p : String} {l₁ l₂ : List (String × FKind)}
    {k : FKind} (h : lookupKey p l₁ = some k) :
    lookupKey p (l₁ ++ l₂) = some k := by
  induction l₁ with
  | nil => simp [lookupKey] at h
  | cons e es ih =>
      by_cases he : e.1 = p
      · simpa [lookupKey, he] using h
      · simp only [lookupKey, he, if_neg, List.cons_append] at h ⊢
        exact ih h

theorem lookupKey_append_none {p : String} {l₁ l₂ : List (String × FKind)}
    (h : lookupKey p l₁ = none) :
    lookupKey p (l₁ ++ l₂) = lookupKey p l₂ := by
  induction l₁ with
  | nil => simp
  | cons e es ih =>
      by_cases he : e.1 = p
      · simp [lookupKey, he] at h
      · simp only [lookupKey, he, if_neg, List.cons_append] at h ⊢
        exact ih h

theorem lookupKey_append_single_ne {p a : String} {k : FKind}
    {l : List (String × FKind)} (h : a ≠ p) :
    lookupKey p (l ++ [(a, k)]) = lookupKey p l := by
  cases hl : lookupKey p l with
  | some k' => exact lookupKey_append_some hl
  | none => rw [lookupKey_append_none hl]; simp [lookupKey, h]

/-! Suffix reasoning used to separate artifact names from sidecar names. -/

theorem suffix_total {a b p : List Char} (ha : a <:+ p) (hb : b <:+ p) :
    a <:+ b ∨ b <:+ a := by
  obtain ⟨s, hs⟩ := ha
  obtain ⟨t, ht⟩ := hb
  have h : t ++ b = s ++ a := by rw [hs, ht]
  rw [List.append_eq_append_iff] at h
  rcases h with ⟨u, _, hu⟩ | ⟨u, _, hu⟩
  · exact Or.inl ⟨u, hu.symm⟩
  · exact Or.inr ⟨u, hu.symm⟩

theorem suffix_incompat {a b p : List Char} (hab : ¬ a <:+ b) (hba : ¬ b <:+ a)
    (ha : a <:+ p) (hb : b <:+ p) : False :=
  (suffix_total ha hb).elim hab hba

theorem strAppend_right_cancel {a b s : String} (h : a ++ s = b ++ s) : a = b := by
  have hd : a.data ++ s.data = b.data ++ s.data := by
    rw [← String.data_append, ← String.data_append, h]
  have : a.data = b.data := List.append_cancel_right hd
  cases a; cases b; exact congrArg String.mk this

theorem suffix_data_strAppend (p s : String) : s.data <:+ (p ++ s).data := by
  rw [String.data_append]
  exact List.suffix_append p.data s.data

theorem sidecarName_inj {p q : String} (h : sidecarName p = sidecarName q) :
    p = q := strAppend_right_cancel h

theorem endsWithExt_iff {name ext : String} :
    endsWithExt name ext = true ↔ ext.data <:+ name.data := by
  simp [endsWithExt]

/-- A dist name is never a sidecar name: the three artifact extensions are
pairwise suffix-incompatible with `.publish.attestation`. -/
theorem dist_ne_sidecarName {p q : String} (h : isDistName p) :
    p ≠ sidecarName q := by
  intro he
  have hsfx : ".publish.attestation".data <:+ p.data := by
    rw [he]; exact suffix_data_strAppend q ".publish.attestation"
  rcases h with h1 | h1 | h1
  · exact suffix_incompat (by decide) (by decide) h1 hsfx
  · exact suffix_incompat (by decide) (by decide) h1 hsfx
  · exact suffix_incompat (by decide) (by decide) h1 hsfx

theorem mem_glob_ends {fs : FS} {p ext : String} (h : p ∈ fs.glob ext) :
    ext.data <:+ p.data := by
  simp only [FS.glob, List.mem_map, List.mem_filter] at h
  obtain ⟨e, ⟨_, he⟩, rfl⟩ := h
  exact endsWithExt_iff.mp he

theorem map_resolvePath (l : List String) : l.map resolvePath = l :=
  List.map_id' l

theorem mem_distCandidates_isDistName {fs : FS} {p : String}
    (h : p ∈ distCandidates fs) : isDistName p := by
  simp only [distCandidates, map_resolvePath, List.mem_append] at h
  rcases h with (h | h) | h
  · exact Or.inl (mem_glob_ends h)
  · exact Or.inr (Or.inl (mem_glob_ends h))
  · exact Or.inr (Or.inr (mem_glob_ends h))

theorem pathExists_false_iff {fs : FS} {p : String} :
    fs.pathExists p = false ↔ fs.lookup p = none := by
  unfold FS.pathExists; cases fs.lookup p <;> simp

theorem pathExists_true_of_lookup {fs : FS} {p : String} {k : FKind}
    (h : fs.lookup p = some k) : fs.pathExists p = true := by
  unfold FS.pathExists; rw [h]; rfl

theorem glob_nodup {fs : FS} {ext : String}
    (h : (fs.entries.map Prod.fst).Nodup) : (fs.glob ext).Nodup := by
  unfold FS.glob
  exact h.sublist ((List.filter_sublist fs.entries).map Prod.fst)

theorem glob_disjoint {fs : FS} {e1 e2 : String}
    (h12 : ¬ e1.data <:+ e2.data) (h21 : ¬ e2.data <:+ e1.data) :
    (fs.glob e1).Disjoint (fs.glob e2) := by
  intro x hx1 hx2
  exact suffix_incompat h12 h21 (mem_glob_ends hx1) (mem_glob_ends hx2)

theorem distCandidates_nodup {fs : FS}
    (h : (fs.entries.map Prod.fst).Nodup) : (distCandidates fs).Nodup := by
  rw [distCandidates, map_resolvePath, map_resolvePath, map_resolvePath]
  have n1 : (fs.glob ".tar.gz").Nodup := glob_nodup h
  have n2 : (fs.glob ".zip").Nodup := glob_nodup h
  have n3 : (fs.glob ".whl").Nodup := glob_nodup h
  have d12 : (fs.glob ".tar.gz").Disjoint (fs.glob ".zip") :=
    glob_disjoint (by decide) (by decide)
  have d13 : (fs.glob ".tar.gz").Disjoint (fs.glob ".whl") :=
    glob_disjoint (by decide) (by decide)
  have d23 : (fs.glob ".zip").Disjoint (fs.glob ".whl") :=
    glob_disjoint (by decide) (by decide)
  refine (n1.append n2 d12).append n3 ?_
  intro x hx hx3
  rcases List.mem_append.mp hx with hx1 | hx2
  · exact d13 hx1 hx3
  · exact d23 hx2 hx3

theorem collect_dists_ok_of_files {fs : FS}
    (h : ∀ p ∈ distCandidates fs, fs.isFile p = true) :
    collect_dists fs = Except.ok (distCandidates fs) := by
  unfold collect_dists
  have hnil : (distCandidates fs).filter (fun p => !(fs.isFile p)) = [] := by
    rw [List.filter_eq_nil_iff]
    intro a ha
    simp [h a ha]
  simp [hnil]

theorem collect_dists_err_of_bad {fs : FS}
    (hbad : ∃ p ∈ distCandidates fs, fs.isFile p = false) :
    collect_dists fs = Except.error
      ("The following paths look like distributions but are not actually files: "
        ++ String.intercalate ", "
          ((distCandidates fs).filter (fun p => !(fs.isFile p)))) := by
  obtain ⟨p, hp, hf⟩ := hbad
  have hmem : p ∈ (distCandidates fs).filter (fun p => !(fs.isFile p)) :=
    List.mem_filter.mpr ⟨hp, by simp [hf]⟩
  have hne : ((distCandidates fs).filter (fun p => !(fs.isFile p))).isEmpty = false := by
    cases hE : ((distCandidates fs).filter (fun p => !(fs.isFile p))).isEmpty
    · rfl
    · rw [List.isEmpty_iff] at hE
      rw [hE] at hmem
      simp at hmem
  unfold collect_dists
  simp [hne]

theorem collect_dists_ok_eq {fs : FS} {ds : List String}
    (h : collect_dists fs = Except.ok ds) : ds = distCandidates fs := by
  unfold collect_dists at h
  by_cases hE : ((distCandidates fs).filter (fun p => !(fs.isFile p))).isEmpty
  · simp [hE] at h
    exact h.symm
  · simp [hE] at h

theorem attest_dist_ok {sign : Signer → Distribution → String} {p : String}
    {signer : Signer} {st : RunState}
    (hsp : st.fs.pathExists (sidecarName p) = false) :
    attest_dist sign p signer st = Except.ok
      { st with
        fs := ⟨st.fs.entries ++ [sidecarWrite sign signer st.fs p]⟩
        stderr := st.stderr ++ [debugSavedLine p]
        trace := st.trace ++ [Event.signCall signer p] } := by
  unfold attest_dist FS.writeText
  simp only [hsp, Bool.false_eq_true, if_false]
  rfl

theorem attest_dist_err {sign : Signer → Distribution → String} {p : String}
    {signer : Signer} {st : RunState}
    (hsp : st.fs.pathExists (sidecarName p) = true) :
    attest_dist sign p signer st = Except.error
      (st, p ++ " already has a publish attestation: " ++ sidecarName p) := by
  unfold attest_dist
  simp only [hsp, if_true]

theorem attestLoop_clean (sign : Signer → Distribution → String) (signer : Signer)
    (ps : List String) (st : RunState)
    (hnd : ps.Nodup)
    (hdist : ∀ p ∈ ps, isDistName p)
    (hside : ∀ p ∈ ps, st.fs.pathExists (sidecarName p) = false) :
    attestLoop sign signer ps st = Except.ok
      { fs := ⟨st.fs.entries ++ ps.map (sidecarWrite sign signer st.fs)⟩
        stepSummary := st.stepSummary
        stderr := st.stderr ++ ps.map debugSavedLine
        trace := st.trace ++ ps.map (fun p => Event.signCall signer p) } := by
  induction ps generalizing st with
  | nil =>
      simp only [attestLoop, List.map_nil, List.append_nil]
  | cons p ps ih =>
      have hsp : st.fs.pathExists (sidecarName p) = false := hside p (by simp)
      have hpn : p ∉ ps := (List.nodup_cons.mp hnd).1
      have hside2 : ∀ q ∈ ps,
          (FS.mk (st.fs.entries ++ [sidecarWrite sign signer st.fs p])).pathExists
            (sidecarName q) = false := by
        intro q hq
        rw [pathExists_false_iff]
        show lookupKey (sidecarName q)
          (st.fs.entries ++ [sidecarWrite sign signer st.fs p]) = none
        have h0 : lookupKey (sidecarName q) st.fs.entries = none :=
          pathExists_false_iff.mp (hside q (List.mem_cons_of_mem _ hq))
        rw [lookupKey_append_none h0]
        have hpq : p ≠ q := fun he => hpn (he ▸ hq)
        have hne : sidecarName p ≠ sidecarName q := fun he => hpq (sidecarName_inj he)
        simp [lookupKey, sidecarWrite, hne]
      have hcontent : ∀ q ∈ ps,
          sidecarWrite sign signer
              (FS.mk (st.fs.entries ++ [sidecarWrite sign signer st.fs p])) q
            = sidecarWrite sign signer st.fs q := by
        intro q hq
        have hne : sidecarName p ≠ q :=
          fun he => dist_ne_sidecarName (hdist q (List.mem_cons_of_mem _ hq)) he.symm
        have hcq : (FS.mk (st.fs.entries
              ++ [sidecarWrite sign signer st.fs p])).contentOf q
            = st.fs.contentOf q := by
          unfold FS.contentOf FS.lookup
          rw [show (st.fs.entries ++ [sidecarWrite sign signer st.fs p])
              = st.fs.entries ++ [(sidecarName p,
                  FKind.regular (sign signer
                    (Distribution.from_file p (st.fs.contentOf p))))] from rfl,
            lookupKey_append_single_ne hne]
        exact congrArg (fun c => (sidecarName q,
          FKind.regular (sign signer (Distribution.from_file q c)))) hcq
      have hmap := List.map_congr_left hcontent
      simp only [attestLoop]
      rw [attest_dist_ok hsp]
      show attestLoop sign signer ps
          { st with
            fs := ⟨st.fs.entries ++ [sidecarWrite sign signer st.fs p]⟩
            stderr := st.stderr ++ [debugSavedLine p]
            trace := st.trace ++ [Event.signCall signer p] } = _
      rw [ih _ (List.nodup_cons.mp hnd).2
        (fun q hq => hdist q (List.mem_cons_of_mem _ hq)) hside2]
      simp only [hmap, List.map_cons, List.append_assoc, List.singleton_append]

theorem attestLoop_append (sign : Signer → Distribution → String) (signer : Signer)
    (l₁ l₂ : List String) (st : RunState) :
    attestLoop sign signer (l₁ ++ l₂) st =
      match attestLoop sign signer l₁ st with
      | Except.error e => Except.error e
      | Except.ok st' => attestLoop sign signer l₂ st' := by
  induction l₁ generalizing st with
  | nil => simp [attestLoop]
  | cons p ps ih =>
      simp only [List.cons_append, attestLoop]
      cases h : attest_dist sign p signer st with
      | error e => simp
      | ok st' => simpa using ih st'

theorem attestLoop_die_head (sign : Signer → Distribution → String)
    (signer : Signer) (p : String) (ps : List String) (st : RunState)
    (h : st.fs.pathExists (sidecarName p) = true) :
    attestLoop sign signer (p :: ps) st =
      Except.error (st, p ++ " already has a publish attestation: " ++ sidecarName p) := by
  simp only [attestLoop]
  rw [attest_dist_err h]

theorem attestLoop_frame (sign : Signer → Distribution → String) (signer : Signer)
    (ps : List String) (st : RunState) (q : String)
    (h : st.fs.pathExists q = true) :
    (stateOf (attestLoop sign signer ps st)).fs.lookup q = st.fs.lookup q := by
  induction ps generalizing st with
  | nil => simp [attestLoop, stateOf]
  | cons p ps ih =>
      simp only [attestLoop]
      cases hsp : st.fs.pathExists (sidecarName p) with
      | true => rw [attest_dist_err hsp]; simp [stateOf]
      | false =>
          rw [attest_dist_ok hsp]
          obtain ⟨k, hk⟩ : ∃ k, st.fs.lookup q = some k := by
            unfold FS.pathExists at h
            cases hl : st.fs.lookup q with
            | none => rw [hl] at h; simp at h
            | some k => exact ⟨k, rfl⟩
          have hk1 : (FS.mk (st.fs.entries
              ++ [sidecarWrite sign signer st.fs p])).lookup q = some k :=
            lookupKey_append_some hk
          have := ih { st with
            fs := ⟨st.fs.entries ++ [sidecarWrite sign signer st.fs p]⟩
            stderr := st.stderr ++ [debugSavedLine p]
            trace := st.trace ++ [Event.signCall signer p] }
            (pathExists_true_of_lookup hk1)
          rw [show (match Except.ok { st with
              fs := FS.mk (st.fs.entries ++ [sidecarWrite sign signer st.fs p])
              stderr := st.stderr ++ [debugSavedLine p]
              trace := st.trace ++ [Event.signCall signer p] } with
            | Except.error e => Except.error e
            | Except.ok st' => attestLoop sign signer ps st')
            = attestLoop sign signer ps { st with
              fs := FS.mk (st.fs.entries ++ [sidecarWrite sign signer st.fs p])
              stderr := st.stderr ++ [debugSavedLine p]
              trace := st.trace ++ [Event.signCall signer p] } from rfl]
          rw [this]
          show (FS.mk (st.fs.entries ++ [sidecarWrite sign signer st.fs p])).lookup q
            = st.fs.lookup q
          rw [hk1, hk]

theorem attestLoop_cons_ok {sign : Signer → Distribution → String}
    {signer : Signer} {p : String} {ps : List String} {st st₁ : RunState}
    (h : attest_dist sign p signer st = Except.ok st₁) :
    attestLoop sign signer (p :: ps) st = attestLoop sign signer ps st₁ := by
  simp only [attestLoop]
  rw [h]

theorem attestLoop_names (sign : Signer → Distribution → String) (signer : Signer)
    (ps : List String) (st : RunState) (q : String)
    (h : (stateOf (attestLoop sign signer ps st)).fs.pathExists q = true) :
    st.fs.pathExists q = true ∨ ∃ p ∈ ps, q = sidecarName p := by
  induction ps generalizing st with
  | nil => left; simpa [attestLoop, stateOf] using h
  | cons p ps ih =>
      by_cases hsp : st.fs.pathExists (sidecarName p) = true
      · rw [attestLoop_die_head sign signer p ps st hsp] at h
        left; simpa [stateOf] using h
      · have hsp2 : st.fs.pathExists (sidecarName p) = false := by
          cases hv : st.fs.pathExists (sidecarName p)
          · rfl
          · exact absurd hv hsp
        rw [attestLoop_cons_ok (attest_dist_ok hsp2)] at h
        rcases ih _ h with hin | ⟨x, hx, hqx⟩
        · cases hl : lookupKey q st.fs.entries with
          | some k =>
              left
              exact pathExists_true_of_lookup (show FS.lookup st.fs q = some k from hl)
          | none =>
              right
              refine ⟨p, by simp, ?_⟩
              have hin2 : (FS.mk (st.fs.entries
                  ++ [sidecarWrite sign signer st.fs p])).pathExists q = true := hin
              unfold FS.pathExists FS.lookup at hin2
              rw [show (FS.mk (st.fs.entries ++ [sidecarWrite sign signer st.fs p])).entries
                  = st.fs.entries ++ [sidecarWrite sign signer st.fs p] from rfl,
                lookupKey_append_none hl] at hin2
              by_cases hqp : sidecarName p = q
              · exact hqp.symm
              · simp [lookupKey, sidecarWrite, hqp] at hin2
        · exact Or.inr ⟨x, List.mem_cons_of_mem _ hx, hqx⟩

theorem attestLoop_stepSummary (sign : Signer → Distribution → String)
    (signer : Signer) (ps : List String) (st : RunState) :
    (stateOf (attestLoop sign signer ps st)).stepSummary = st.stepSummary := by
  induction ps generalizing st with
  | nil => simp [attestLoop, stateOf]
  | cons p ps ih =>
      by_cases hsp : st.fs.pathExists (sidecarName p) = true
      · rw [attestLoop_die_head sign signer p ps st hsp]
        simp [stateOf]
      · have hsp2 : st.fs.pathExists (sidecarName p) = false := by
          cases hv : st.fs.pathExists (sidecarName p)
          · rfl
          · exact absurd hv hsp
        rw [attestLoop_cons_ok (attest_dist_ok hsp2)]
        exact ih _

theorem attestLoop_trace_ok (sign : Signer → Distribution → String)
    (signer : Signer) (ps : List String) (st st' : RunState)
    (h : attestLoop sign signer ps st = Except.ok st') :
    st'.trace = st.trace ++ ps.map (fun p => Event.signCall signer p) := by
  induction ps generalizing st with
  | nil =>
      simp only [attestLoop] at h
      cases h
      simp
  | cons p ps ih =>
      by_cases hsp : st.fs.pathExists (sidecarName p) = true
      · rw [attestLoop_die_head sign signer p ps st hsp] at h
        cases h
      · have hsp2 : st.fs.pathExists (sidecarName p) = false := by
          cases hv : st.fs.pathExists (sidecarName p)
          · rfl
          · exact absurd hv hsp
        rw [attestLoop_cons_ok (attest_dist_ok hsp2)] at h
        rw [ih _ h]
        simp

theorem attestLoop_trace_err (sign : Signer → Distribution → String)
    (signer : Signer) (ps : List String) (st stE : RunState) (msg : String)
    (h : attestLoop sign signer ps st = Except.error (stE, msg)) :
    ∃ processed rest, ps = processed ++ rest ∧
      stE.trace = st.trace ++ processed.map (fun p => Event.signCall signer p) := by
  induction ps generalizing st with
  | nil => simp [attestLoop] at h
  | cons p ps ih =>
      by_cases hsp : st.fs.pathExists (sidecarName p) = true
      · rw [attestLoop_die_head sign signer p ps st hsp] at h
        cases h
        exact ⟨[], p :: ps, rfl, by simp⟩
      · have hsp2 : st.fs.pathExists (sidecarName p) = false := by
          cases hv : st.fs.pathExists (sidecarName p)
          · rfl
          · exact absurd hv hsp
        rw [attestLoop_cons_ok (attest_dist_ok hsp2)] at h
        obtain ⟨processed, rest, hps, htr⟩ := ih _ h
        exact ⟨p :: processed, rest, by rw [hps]; rfl, by rw [htr]; simp⟩

theorem main_err (e : String) (sign : Signer → Distribution → String) (fs : FS) :
    main (Except.error e) sign fs =
      die ⟨fs, [], [], [Event.fetchToken]⟩ (tokenRetrievalFailedMsg e) := rfl

theorem main_err_collect (tok : String) (sign : Signer → Distribution → String)
    (fs : FS) (msg : String) (hc : collect_dists fs = Except.error msg) :
    main (Except.ok tok) sign fs =
      die ⟨fs, [], [], [Event.fetchToken, Event.scanDir]⟩ msg := by
  simp only [main]
  rw [hc]
  rfl

theorem main_ok (tok : String) (sign : Signer → Distribution → String)
    (fs : FS) (ds : List String) (hc : collect_dists fs = Except.ok ds) :
    main (Except.ok tok) sign fs =
      match attestLoop sign ⟨tok, true⟩ ds (loopStart tok fs ds) with
      | Except.error (st, msg) => die st msg
      | Except.ok st => finish st := by
  simp only [main, loopStart]
  rw [hc]
  rfl

theorem main_result_fs (tok : String) (sign : Signer → Distribution → String)
    (fs : FS) (ds : List String) (hc : collect_dists fs = Except.ok ds) :
    (main (Except.ok tok) sign fs).fs =
      (stateOf (attestLoop sign ⟨tok, true⟩ ds (loopStart tok fs ds))).fs := by
  rw [main_ok tok sign fs ds hc]
  cases hl : attestLoop sign ⟨tok, true⟩ ds (loopStart tok fs ds) with
  | error e => cases e; rfl
  | ok st => rfl

theorem main_lookup_frame (ident : Except String String)
    (sign : Signer → Distribution → String) (fs : FS) (q : String)
    (h : fs.pathExists q = true) :
    (main ident sign fs).fs.lookup q = fs.lookup q := by
  cases ident with
  | error e => rw [main_err]; rfl
  | ok tok =>
      cases hc : collect_dists fs with
      | error msg => rw [main_err_collect tok sign fs msg hc]; rfl
      | ok ds =>
          rw [main_result_fs tok sign fs ds hc]
          exact attestLoop_frame sign ⟨tok, true⟩ ds (loopStart tok fs ds) q h

theorem main_names (ident : Except String String)
    (sign : Signer → Distribution → String) (fs : FS) (q : String)
    (h : (main ident sign fs).fs.pathExists q = true) :
    fs.pathExists q = true ∨ ∃ x ∈ distCandidates fs, q = sidecarName x := by
  cases ident with
  | error e =>
      rw [main_err] at h
      exact Or.inl h
  | ok tok =>
      cases hc : collect_dists fs with
      | error msg =>
          rw [main_err_collect tok sign fs msg hc] at h
          exact Or.inl h
      | ok ds =>
          rw [main_result_fs tok sign fs ds hc] at h
          rcases attestLoop_names sign ⟨tok, true⟩ ds (loopStart tok fs ds) q h with
            hin | ⟨x, hx, hqx⟩
          · exact Or.inl hin
          · exact Or.inr ⟨x, (collect_dists_ok_eq hc) ▸ hx, hqx⟩

theorem mem_glob_iff {fs : FS} {ext p : String} :
    p ∈ fs.glob ext ↔ ∃ k, (p, k) ∈ fs.entries ∧ endsWithExt p ext = true := by
  unfold FS.glob
  constructor
  · intro h
    rcases List.mem_map.mp h with ⟨e, hm, rfl⟩
    rcases List.mem_filter.mp hm with ⟨he, hext⟩
    exact ⟨e.2, he, hext⟩
  · rintro ⟨k, hk, hext⟩
    exact List.mem_map.mpr ⟨(p, k), List.mem_filter.mpr ⟨hk, hext⟩, rfl⟩

theorem mem_distCandidates_iff {fs : FS} {p : String} :
    p ∈ distCandidates fs ↔
      (∃ k, (p, k) ∈ fs.entries) ∧
        (endsWithExt p ".tar.gz" = true ∨ endsWithExt p ".zip" = true
          ∨ endsWithExt p ".whl" = true) := by
  rw [distCandidates, map_resolvePath, map_resolvePath, map_resolvePath]
  simp only [List.mem_append]
  constructor
  · rintro ((h | h) | h) <;> rcases mem_glob_iff.mp h with ⟨k, hk, hext⟩
    · exact ⟨⟨k, hk⟩, Or.inl hext⟩
    · exact ⟨⟨k, hk⟩, Or.inr (Or.inl hext)⟩
    · exact ⟨⟨k, hk⟩, Or.inr (Or.inr hext)⟩
  · rintro ⟨⟨k, hk⟩, (hext | hext | hext)⟩
    · exact Or.inl (Or.inl (mem_glob_iff.mpr ⟨k, hk, hext⟩))
    · exact Or.inl (Or.inr (mem_glob_iff.mpr ⟨k, hk, hext⟩))
    · exact Or.inr (mem_glob_iff.mpr ⟨k, hk, hext⟩)

theorem replaceNewlines_no_newline (l : List Char) :
    ∀ c ∈ replaceNewlines l, c ≠ '\n' := by
  induction l with
  | nil => intro c hc; simp [replaceNewlines] at hc
  | cons a as ih =>
      intro c hc
      by_cases ha : a = '\n'
      · rw [replaceNewlines, if_pos ha] at hc
        simp only [List.mem_cons] at hc
        rcases hc with rfl | rfl | rfl | hc
        · decide
        · decide
        · decide
        · exact ih c hc
      · rw [replaceNewlines, if_neg ha] at hc
        simp only [List.mem_cons] at hc
        rcases hc with rfl | hc
        · exact ha
        · exact ih c hc

/-- C1: for every directory state whose glob matches are all regular files
and none of which has a pre-existing sidecar, the driver exits 0 and the
final directory is the initial one plus exactly one new sidecar entry per
matched artifact, named by appending `.publish.attestation` and holding
the JSON serialization of the signed attestation. -/
theorem C1_success_writes_one_sidecar_per_dist (tok : String)
    (sign : Signer → Distribution → String) (fs : FS)
    (hnd : (fs.entries.map Prod.fst).Nodup)
    (hfile : ∀ p ∈ distCandidates fs, fs.isFile p = true)
    (hside : ∀ p ∈ distCandidates fs, fs.pathExists (sidecarName p) = false) :
    (main (Except.ok tok) sign fs).exitCode = 0 ∧
    (main (Except.ok tok) sign fs).fs.entries =
      fs.entries ++ (distCandidates fs).map (sidecarWrite sign ⟨tok, true⟩ fs) := by
  have hc := collect_dists_ok_of_files hfile
  rw [main_ok tok sign fs _ hc]
  rw [attestLoop_clean sign ⟨tok, true⟩ (distCandidates fs)
    (loopStart tok fs (distCandidates fs)) (distCandidates_nodup hnd)
    (fun p hp => mem_distCandidates_isDistName hp) hside]
  exact ⟨rfl, rfl⟩

/-- C2: when some glob match is not a regular file, the driver exits 1,
leaves the directory exactly as it was (zero sidecars written), and stops
before opening the signing session or signing anything: the trace ends at
the directory scan. -/
theorem C2_invalid_path_aborts_without_writing (tok : String)
    (sign : Signer → Distribution → String) (fs : FS)
    (hbad : ∃ p ∈ distCandidates fs, fs.isFile p = false) :
    (main (Except.ok tok) sign fs).exitCode = 1 ∧
    (main (Except.ok tok) sign fs).fs = fs ∧
    (main (Except.ok tok) sign fs).trace = [Event.fetchToken, Event.scanDir] := by
  rw [main_err_collect tok sign fs _ (collect_dists_err_of_bad hbad)]
  exact ⟨rfl, rfl, rfl⟩

/-- C4: when identity retrieval fails, the driver dies with the dedicated
token-retrieval message, exit code 1, before scanning the directory (the
trace stops at the fetch) and without touching the directory. -/
theorem C4_identity_failure_aborts_before_scan (e : String)
    (sign : Signer → Distribution → String) (fs : FS) :
    main (Except.error e) sign fs =
      { exitCode := 1
        fs := fs
        stepSummary := [errorSummaryMsg (tokenRetrievalFailedMsg e)]
        stderr := ["::error::Attestation generation failure: "
          ++ escapeNewlines (tokenRetrievalFailedMsg e)]
        trace := [Event.fetchToken] } := rfl

/-- C8: a path that exists before the run is never modified, truncated or
deleted: its directory entry after the run is exactly its entry before,
on every path through the driver (in particular on the pre-existing
sidecar error path). -/
theorem C8_preexisting_entries_never_modified (ident : Except String String)
    (sign : Signer → Distribution → String) (fs : FS) (q : String)
    (h : fs.pathExists q = true) :
    (main ident sign fs).fs.lookup q = fs.lookup q :=
  main_lookup_frame ident sign fs q h

/-- C10: with the step-summary environment variable unset, module
initialization raises an unhandled TypeError before argument parsing,
identity acquisition or discovery: the whole run is the import-time crash,
so the normal termination routine never runs (no step-summary entry and no
error annotation is produced). -/
theorem C10_unset_step_summary_env_crashes_at_import
    (ident : Except String String) (sign : Signer → Distribution → String)
    (fs : FS) :
    program none ident sign fs = Except.error
      "TypeError: argument should be a str or an os.PathLike object, not NoneType" := rfl

/-- C5: every fatal outcome of the driver is produced by the single
termination routine `die`, which appends one summary chunk to the
step-summary file, prints one error annotation line in which every newline
of the message has been replaced by the three characters percent-zero-A
(so the printed line contains no newline from the message), and exits 1. -/
theorem C5_all_fatal_paths_through_die (ident : Except String String)
    (sign : Signer → Distribution → String) (fs : FS)
    (h : (main ident sign fs).exitCode ≠ 0) :
    ∃ st msg, main ident sign fs = die st msg ∧
      (die st msg).exitCode = 1 ∧
      (die st msg).stepSummary = st.stepSummary ++ [errorSummaryMsg msg] ∧
      (die st msg).stderr = st.stderr ++
        ["::error::Attestation generation failure: " ++ escapeNewlines msg] ∧
      (∀ c ∈ (escapeNewlines msg).data, c ≠ '\n') := by
  cases ident with
  | error e =>
      exact ⟨_, _, main_err e sign fs, rfl, rfl, rfl,
        replaceNewlines_no_newline _⟩
  | ok tok =>
      cases hc : collect_dists fs with
      | error msg =>
          exact ⟨_, _, main_err_collect tok sign fs msg hc, rfl, rfl, rfl,
            replaceNewlines_no_newline _⟩
      | ok ds =>
          rw [main_ok tok sign fs ds hc] at h ⊢
          cases hl : attestLoop sign ⟨tok, true⟩ ds (loopStart tok fs ds) with
          | error e =>
              obtain ⟨st, msg⟩ := e
              exact ⟨st, msg, rfl, rfl, rfl, rfl, replaceNewlines_no_newline _⟩
          | ok st =>
              rw [hl] at h
              exact absurd rfl h

/-- C6: discovery returns exactly the directory entries matching one of
the three patterns, and a name matching none of them never gets a sidecar:
after any run, the existence of its would-be sidecar is unchanged. -/
theorem C6_discovery_exactly_three_globs (fs : FS) (p : String) :
    (p ∈ distCandidates fs ↔
      ((∃ k, (p, k) ∈ fs.entries) ∧
        (endsWithExt p ".tar.gz" = true ∨ endsWithExt p ".zip" = true
          ∨ endsWithExt p ".whl" = true))) ∧
    (∀ (ident : Except String String) (sign : Signer → Distribution → String),
      endsWithExt p ".tar.gz" = false → endsWithExt p ".zip" = false →
      endsWithExt p ".whl" = false →
      (main ident sign fs).fs.pathExists (sidecarName p)
        = fs.pathExists (sidecarName p)) := by
  refine ⟨mem_distCandidates_iff, ?_⟩
  intro ident sign h1 h2 h3
  cases hv : fs.pathExists (sidecarName p) with
  | true =>
      exact (show (main ident sign fs).fs.pathExists (sidecarName p)
          = fs.pathExists (sidecarName p) from
        congrArg Option.isSome (main_lookup_frame ident sign fs _ hv)).trans hv
  | false =>
      cases hf : (main ident sign fs).fs.pathExists (sidecarName p) with
      | false => rfl
      | true =>
          rcases main_names ident sign fs (sidecarName p) hf with hin | ⟨x, hx, hqx⟩
          · rw [hin] at hv
            cases hv
          · have hpx : p = x := sidecarName_inj hqx
            have hd : isDistName p := hpx ▸ mem_distCandidates_isDistName hx
            rcases hd with hs | hs | hs
            · rw [← endsWithExt_iff] at hs
              rw [h1] at hs
              cases hs
            · rw [← endsWithExt_iff] at hs
              rw [h2] at hs
              cases hs
            · rw [← endsWithExt_iff] at hs
              rw [h3] at hs
              cases hs

/-- C7: in every run that reaches the signing phase, the credential is
fetched exactly once and before the directory scan, one signing session is
opened exactly once (with that credential and caching on), and every
signing call uses that same unchanged session, over a prefix of the
discovered artifacts in discovery order. -/
theorem C7_one_token_one_session_in_order (tok : String)
    (sign : Signer → Distribution → String) (fs : FS) (ds : List String)
    (hc : collect_dists fs = Except.ok ds) :
    ∃ processed rest, ds = processed ++ rest ∧
      (main (Except.ok tok) sign fs).trace =
        [Event.fetchToken, Event.scanDir, Event.openSession ⟨tok, true⟩]
          ++ processed.map (fun p => Event.signCall ⟨tok, true⟩ p) ∧
      (main (Except.ok tok) sign fs).trace.count Event.fetchToken = 1 ∧
      (main (Except.ok tok) sign fs).trace.count
        (Event.openSession ⟨tok, true⟩) = 1 := by
  have hcount : ∀ processed : List String,
      ([Event.fetchToken, Event.scanDir, Event.openSession ⟨tok, true⟩]
        ++ processed.map (fun p => Event.signCall ⟨tok, true⟩ p)).count
          Event.fetchToken = 1 ∧
      ([Event.fetchToken, Event.scanDir, Event.openSession ⟨tok, true⟩]
        ++ processed.map (fun p => Event.signCall ⟨tok, true⟩ p)).count
          (Event.openSession ⟨tok, true⟩) = 1 := by
    intro processed
    constructor <;>
      simp [List.count_append, List.count_cons, List.count_eq_zero,
        List.mem_map]
  rw [main_ok tok sign fs ds hc]
  cases hl : attestLoop sign ⟨tok, true⟩ ds (loopStart tok fs ds) with
  | error e =>
      obtain ⟨st, msg⟩ := e
      obtain ⟨processed, rest, hps, htr⟩ :=
        attestLoop_trace_err sign ⟨tok, true⟩ ds (loopStart tok fs ds) st msg hl
      refine ⟨processed, rest, hps, ?_, ?_, ?_⟩
      · show st.trace = _
        rw [htr]
        rfl
      · show st.trace.count _ = 1
        rw [htr]
        exact (hcount processed).1
      · show st.trace.count _ = 1
        rw [htr]
        exact (hcount processed).2
  | ok st =>
      have htr := attestLoop_trace_ok sign ⟨tok, true⟩ ds (loopStart tok fs ds) st hl
      refine ⟨ds, [], (List.append_nil ds).symm, ?_, ?_, ?_⟩
      · show st.trace = _
        rw [htr]
        rfl
      · show st.trace.count _ = 1
        rw [htr]
        exact (hcount ds).1
      · show st.trace.count _ = 1
        rw [htr]
        exact (hcount ds).2

/-- C9: with no glob match at all, the driver still dies (exit 1) on an
identity failure, and on success it opens the signing session, writes
nothing, and exits 0. -/
theorem C9_empty_discovery_still_needs_identity
    (sign : Signer → Distribution → String) (fs : FS)
    (h : distCandidates fs = []) :
    (∀ e, (main (Except.error e) sign fs).exitCode = 1) ∧
    (∀ tok, main (Except.ok tok) sign fs =
      { exitCode := 0
        fs := fs
        stepSummary := []
        stderr := ["::debug::attesting to dists: "]
        trace := [Event.fetchToken, Event.scanDir,
          Event.openSession ⟨tok, true⟩] }) := by
  constructor
  · intro e
    rw [main_err]
    rfl
  · intro tok
    have hfile : ∀ p ∈ distCandidates fs, fs.isFile p = true := by
      rw [h]
      simp
    have hc := collect_dists_ok_of_files hfile
    rw [h] at hc
    have hstr : "::debug::attesting to dists: "
        ++ String.intercalate ", " ([] : List String)
        = "::debug::attesting to dists: " := by decide
    rw [main_ok tok sign fs [] hc]
    show finish (loopStart tok fs []) = _
    unfold finish loopStart
    rw [hstr]

/-- C3 counterexample: with artifacts `a.whl`, `b.whl` and a pre-existing
sidecar for `b.whl` only, the driver exits 1 but has already created the
sidecar for the other artifact `a.whl`, so it is not true that no sidecar
file for any other artifact is written. -/
theorem C3_counterexample_earlier_sidecar_written :
    (main (Except.ok "tok") wSign w3FS).exitCode = 1 ∧
    w3FS.pathExists (sidecarName "a.whl") = false ∧
    (main (Except.ok "tok") wSign w3FS).fs.pathExists (sidecarName "a.whl") = true := by
  decide

/-- C3 (amended): when the first discovered artifact with a pre-existing
sidecar is `c`, the driver exits 1; the final directory is the initial one
plus exactly the sidecars of the artifacts before `c` in discovery order,
so the conflicting sidecar is unmodified and no sidecar is written for `c`
or for any artifact after it. -/
theorem C3_amended_preexisting_sidecar_aborts (tok : String)
    (sign : Signer → Distribution → String) (fs : FS)
    (pre : List String) (c : String) (post : List String)
    (hnd : (fs.entries.map Prod.fst).Nodup)
    (hfile : ∀ p ∈ distCandidates fs, fs.isFile p = true)
    (hds : distCandidates fs = pre ++ c :: post)
    (hpre : ∀ p ∈ pre, fs.pathExists (sidecarName p) = false)
    (hcon : fs.pathExists (sidecarName c) = true) :
    (main (Except.ok tok) sign fs).exitCode = 1 ∧
    (main (Except.ok tok) sign fs).fs.entries =
      fs.entries ++ pre.map (sidecarWrite sign ⟨tok, true⟩ fs) := by
  have hc := collect_dists_ok_of_files hfile
  rw [hds] at hc
  have hndall := distCandidates_nodup hnd
  rw [hds] at hndall
  have hndpre : pre.Nodup :=
    hndall.sublist (List.sublist_append_left pre (c :: post))
  have hdistpre : ∀ p ∈ pre, isDistName p := fun p hp =>
    mem_distCandidates_isDistName (hds ▸ List.mem_append_left (c :: post) hp)
  obtain ⟨stPre, hclean, hfs⟩ :
      ∃ stPre, attestLoop sign ⟨tok, true⟩ pre
          (loopStart tok fs (pre ++ c :: post)) = Except.ok stPre ∧
        stPre.fs.entries =
          fs.entries ++ pre.map (sidecarWrite sign ⟨tok, true⟩ fs) :=
    ⟨_, attestLoop_clean sign ⟨tok, true⟩ pre
      (loopStart tok fs (pre ++ c :: post)) hndpre hdistpre hpre, rfl⟩
  obtain ⟨k, hk⟩ : ∃ k, fs.lookup (sidecarName c) = some k := by
    unfold FS.pathExists at hcon
    cases hl : fs.lookup (sidecarName c) with
    | none => rw [hl] at hcon; simp at hcon
    | some k => exact ⟨k, rfl⟩
  have hTrue : stPre.fs.pathExists (sidecarName c) = true := by
    have : stPre.fs.lookup (sidecarName c) = some k := by
      show lookupKey (sidecarName c) stPre.fs.entries = some k
      rw [hfs]
      exact lookupKey_append_some hk
    exact pathExists_true_of_lookup this
  have hloop : attestLoop sign ⟨tok, true⟩ (pre ++ c :: post)
      (loopStart tok fs (pre ++ c :: post)) =
      Except.error (stPre,
        c ++ " already has a publish attestation: " ++ sidecarName c) := by
    rw [attestLoop_append, hclean]
    exact attestLoop_die_head sign ⟨tok, true⟩ c post stPre hTrue
  rw [main_ok tok sign fs (pre ++ c :: post) hc, hloop]
  exact ⟨rfl, hfs⟩

/-! Closed instantiations of the theorems above on the concrete fixtures. -/

/-- C1 instantiated on `w1FS`. -/
theorem C1_witness :
    (main (Except.ok "tok") wSign w1FS).exitCode = 0 ∧
    (main (Except.ok "tok") wSign w1FS).fs.entries =
      w1FS.entries ++ (distCandidates w1FS).map (sidecarWrite wSign ⟨"tok", true⟩ w1FS) :=
  C1_success_writes_one_sidecar_per_dist "tok" wSign w1FS
    (by decide) (by decide) (by decide)

/-- C2 instantiated on `w2FS`. -/
theorem C2_witness :
    (main (Except.ok "tok") wSign w2FS).exitCode = 1 ∧
    (main (Except.ok "tok") wSign w2FS).fs = w2FS ∧
    (main (Except.ok "tok") wSign w2FS).trace = [Event.fetchToken, Event.scanDir] :=
  C2_invalid_path_aborts_without_writing "tok" wSign w2FS (by decide)

/-- C3 (amended) instantiated on `w3FS`. -/
theorem C3_witness :
    (main (Except.ok "tok") wSign w3FS).exitCode = 1 ∧
    (main (Except.ok "tok") wSign w3FS).fs.entries =
      w3FS.entries ++ (["a.whl"] : List String).map (sidecarWrite wSign ⟨"tok", true⟩ w3FS) :=
  C3_amended_preexisting_sidecar_aborts "tok" wSign w3FS ["a.whl"] "b.whl" []
    (by decide) (by decide) (by decide) (by decide) (by decide)

/-- C5 instantiated on an identity failure over `w5FS`. -/
theorem C5_witness :
    ∃ st msg, main (Except.error "boom") wSign w5FS = die st msg ∧
      (die st msg).exitCode = 1 ∧
      (die st msg).stepSummary = st.stepSummary ++ [errorSummaryMsg msg] ∧
      (die st msg).stderr = st.stderr ++
        ["::error::Attestation generation failure: " ++ escapeNewlines msg] ∧
      (∀ c ∈ (escapeNewlines msg).data, c ≠ '\n') :=
  C5_all_fatal_paths_through_die (Except.error "boom") wSign w5FS (by decide)

/-- C6 instantiated on `w6FS` and the non-matching name `README.md`. -/
theorem C6_witness :
    (main (Except.ok "tok") wSign w6FS).fs.pathExists (sidecarName "README.md")
      = w6FS.pathExists (sidecarName "README.md") :=
  (C6_discovery_exactly_three_globs w6FS "README.md").2 (Except.ok "tok") wSign
    (by decide) (by decide) (by decide)

/-- C7 instantiated on `w7FS`. -/
theorem C7_witness :
    ∃ processed rest, (["a.whl"] : List String) = processed ++ rest ∧
      (main (Except.ok "tok") wSign w7FS).trace =
        [Event.fetchToken, Event.scanDir, Event.openSession ⟨"tok", true⟩]
          ++ processed.map (fun p => Event.signCall ⟨"tok", true⟩ p) ∧
      (main (Except.ok "tok") wSign w7FS).trace.count Event.fetchToken = 1 ∧
      (main (Except.ok "tok") wSign w7FS).trace.count
        (Event.openSession ⟨"tok", true⟩) = 1 :=
  C7_one_token_one_session_in_order "tok" wSign w7FS ["a.whl"] rfl

/-- C8 instantiated on `w8FS` and its pre-existing file `data.txt`. -/
theorem C8_witness :
    (main (Except.ok "tok") wSign w8FS).fs.lookup "data.txt"
      = w8FS.lookup "data.txt" :=
  C8_preexisting_entries_never_modified (Except.ok "tok") wSign w8FS "data.txt"
    (by decide)

/-- C9 instantiated on `w9FS`. -/
theorem C9_witness :
    (main (Except.error "boom") wSign w9FS).exitCode = 1 ∧
    main (Except.ok "tok") wSign w9FS =
      { exitCode := 0
        fs := w9FS
        stepSummary := []
        stderr := ["::debug::attesting to dists: "]
        trace := [Event.fetchToken, Event.scanDir,
          Event.openSession ⟨"tok", true⟩] } :=
  ⟨(C9_empty_discovery_still_needs_identity wSign w9FS (by decide)).1 "boom",
   (C9_empty_discovery_still_needs_identity wSign w9FS (by decide)).2 "tok"⟩

end Attestations
